import Mathlib

/-
Verification of the loop-blocking-scheme evaluation kernel
(nn_dataflow/LoopBlockingScheme.py).

The Python class `LoopBlockingScheme` is embedded shallowly: every derived
attribute of the record (`unit_cnt`, `stored_in_gbuf`, `fetch`, `valid`,
the lazily computed statistics) becomes a pure Lean function of the
construction inputs, and the one mutable interaction
(`set_partition_occupation` / `finalized_stats`) becomes an explicit state
transition.  Python integers are modelled by `Nat`/`Int` (fetch counts use
`Int` because of the `2 * p - 1` formula), floating-point unit costs and
the occupancy scalar by `ℚ`, and `float('inf')` by the top element of
`WithTop ℚ`.
-/

namespace NNDF

/-- Modelled from the spec: data categories {FILTER, IFM, OFM}
(`DataCategoryEnum`, a module of this repository not present in the
sources; order FIL, IFM, OFM as used by the spec's REGF multipliers). -/
inductive DataCat
  | FIL
  | IFM
  | OFM
deriving DecidableEq

/-- Modelled from the spec: loop kinds {IFM, OFM, BAT} (`LoopEnum`, a
module of this repository not present in the sources). -/
inductive LoopKind
  | IFM
  | OFM
  | BAT
deriving DecidableEq

/-- Modelled from the spec: memory hierarchy levels
{DRAM, GBUF, INTERCONNECT, REGF} (`MemHierEnum`, a module of this
repository not present in the sources). -/
inductive MemHier
  | DRAM
  | GBUF
  | ITCN
  | REGF
deriving DecidableEq

/-- Numeric code of a loop kind (the `LoopEnum` integer values
le.IFM = 0, le.OFM = 1, le.BAT = 2). -/
def LoopKind.code : LoopKind → Nat
  | .IFM => 0
  | .OFM => 1
  | .BAT => 2

/-- A tiling-factor sequence of length `BL.NUM + 1 = 3` (the Python lists
`ti`, `to`, `tb`; the length is enforced by an assert in `__init__`,
here by the type). -/
structure T3 where
  f0 : Nat
  f1 : Nat
  f2 : Nat
deriving DecidableEq

/-- Element access `t[i]` on a length-3 tiling list. -/
def T3.at_ (t : T3) : Nat → Nat
  | 0 => t.f0
  | 1 => t.f1
  | _ => t.f2

/-- Modelled from the spec: `Util.prod` (a module of this repository not
present in the sources) over the prefix slice `t[:k]` of a length-3 list;
an empty slice has product 1. -/
def T3.prodTake (t : T3) : Nat → Nat
  | 0 => 1
  | 1 => t.f0
  | 2 => t.f0 * t.f1
  | _ => t.f0 * t.f1 * t.f2

/-- Modelled from the spec: `Util.prod` over the suffix slice `t[k:]` of a
length-3 list. -/
def T3.prodDrop (t : T3) : Nat → Nat
  | 0 => t.f0 * t.f1 * t.f2
  | 1 => t.f1 * t.f2
  | 2 => t.f2
  | _ => 1

/-- Modelled from the spec: `Util.prod` over the whole length-3 list. -/
def T3.prodAll (t : T3) : Nat := t.f0 * t.f1 * t.f2

/-- Construction inputs of one `LoopBlockingScheme` record: the tiling
factors `tifm`/`tofm`/`tbat`, the per-level loop orders, and the fields of
the external records `nested_loop_desc`, `resource` and `options` that the
class reads.  Blocking levels follow `BL`: GBUF = 0, REGF = 1. -/
structure Scheme where
  ti : T3
  to_ : T3
  tb : T3
  order_gbuf : LoopKind → Nat
  order_regf : LoopKind → Nat
  usize_gbuf : DataCat → Nat
  usize_regf : DataCat → Nat
  loopcnt_ifm : Nat
  loopcnt_ofm : Nat
  loopcnt_bat : Nat
  unit_ops : ℚ
  unit_time : ℚ
  unit_access : MemHier → DataCat → ℚ
  size_gbuf : Nat
  size_regf : Nat
  sw_gbuf_bypass : DataCat → Bool

/-- The tiling list of a loop kind (`ti`, `to`, `tb`). -/
def Scheme.tl (s : Scheme) : LoopKind → T3
  | .IFM => s.ti
  | .OFM => s.to_
  | .BAT => s.tb

/-- Attribute `orders[bl]` (only the GBUF and REGF entries are set). -/
def Scheme.orders (s : Scheme) : Nat → LoopKind → Nat
  | 0 => s.order_gbuf
  | _ => s.order_regf

/-- Attribute `tip = Util.prod(ti)`. -/
def Scheme.tip (s : Scheme) : Nat := s.ti.prodAll

/-- Attribute `top = Util.prod(to)`. -/
def Scheme.top (s : Scheme) : Nat := s.to_.prodAll

/-- Attribute `tbp = Util.prod(tb)`. -/
def Scheme.tbp (s : Scheme) : Nat := s.tb.prodAll

/-- Attribute `unit_size[bl]` (GBUF entry is `usize_gbuf`, REGF entry is
`usize_regf`). -/
def Scheme.unit_size (s : Scheme) : Nat → DataCat → Nat
  | 0 => s.usize_gbuf
  | _ => s.usize_regf

/-- Method `_set_unit_cnt`: buffered unit counts at blocking level `bl`,
products of the two relevant loop kinds' factors strictly inside `bl`
(slice `[bl+1:]`). -/
def Scheme.unit_cnt (s : Scheme) (bl : Nat) : DataCat → Nat
  | .FIL => s.ti.prodDrop (bl + 1) * s.to_.prodDrop (bl + 1)
  | .IFM => s.ti.prodDrop (bl + 1) * s.tb.prodDrop (bl + 1)
  | .OFM => s.to_.prodDrop (bl + 1) * s.tb.prodDrop (bl + 1)

/-- A candidate tuple of `_innermost_nontrivial_loop`:
(factor == 1, loop order or +inf, loop code or None).  `none` in the
second component stands for `float('inf')`, `none` in the third for the
Python `None` sentinel. -/
def Cand : Type := Bool × Option Nat × Option Nat

/-- Strict comparison of order components where `none` is `float('inf')`
(larger than every number). -/
def ordLt : Option Nat → Option Nat → Bool
  | some a, some b => a < b
  | some _, none => true
  | none, _ => false

/-- Strict comparison of code components where `none` is the Python
`None`, which compares below every number (Python 2 semantics). -/
def codeLt : Option Nat → Option Nat → Bool
  | none, some _ => true
  | some a, some b => a < b
  | _, _ => false

/-- Lexicographic strict comparison of candidate tuples, as Python's
tuple `<` (with `False < True` on booleans). -/
def candLt (x y : Cand) : Bool :=
  (!x.1 && y.1) ||
    (x.1 == y.1 &&
      (ordLt x.2.1 y.2.1 || (x.2.1 == y.2.1 && codeLt x.2.2 y.2.2)))

/-- Binary minimum keeping the first argument on ties, as Python's
`min`. -/
def candMin (x y : Cand) : Cand := if candLt y x then y else x

/-- Decoding of the third tuple component back to a loop kind. -/
def decodeLoop : Option Nat → Option LoopKind
  | some 0 => some .IFM
  | some 1 => some .OFM
  | some 2 => some .BAT
  | _ => none

/-- Method `_innermost_nontrivial_loop`: the loop kind with a non-one
blocking factor at level `bl_lvl` and the smallest order value, `none` if
all loops are trivial (the `(False, inf, None)` sentinel wins the
four-way `min`). -/
def Scheme.innermost_nontrivial_loop (s : Scheme) (bl_lvl : Nat) :
    Option LoopKind :=
  let order := s.orders bl_lvl
  let cI : Cand := (s.ti.at_ bl_lvl == 1, some (order .IFM), some 0)
  let cO : Cand := (s.to_.at_ bl_lvl == 1, some (order .OFM), some 1)
  let cB : Cand := (s.tb.at_ bl_lvl == 1, some (order .BAT), some 2)
  let cS : Cand := (false, none, none)
  decodeLoop (candMin (candMin (candMin cI cO) cB) cS).2.2

/-- One level of `_set_fetch`: the body of the loop over `bl`, given the
outer level's fetch counts (`outer` plays the role of
`fetch[bl-1]`, and is the constant 1 at the outermost level). -/
def Scheme.feAt (s : Scheme) (bl : Nat) (outer : DataCat → Int) :
    DataCat → Int
  | .FIL =>
      if s.ti.at_ bl * s.to_.at_ bl == 1 then outer .FIL
      else
        (s.tb.prodTake
          (bl + if s.innermost_nontrivial_loop bl ≠ some .BAT then 1
                else 0) : Int)
  | .IFM =>
      if s.ti.at_ bl * s.tb.at_ bl == 1 then outer .IFM
      else
        (s.to_.prodTake
          (bl + if s.innermost_nontrivial_loop bl ≠ some .OFM then 1
                else 0) : Int)
  | .OFM =>
      if s.to_.at_ bl * s.tb.at_ bl == 1 then outer .OFM
      else
        2 * (s.ti.prodTake
          (bl + if s.innermost_nontrivial_loop bl ≠ some .IFM then 1
                else 0) : Int) - 1

/-- Method `_set_fetch`: fetch times per blocking level and data category,
computed from the outer level (GBUF, bl = 0) inwards. -/
def Scheme.fetch (s : Scheme) : Nat → DataCat → Int
  | 0 => s.feAt 0 fun _ => 1
  | n + 1 => s.feAt (n + 1) (s.fetch n)

/-- Initial (conservative) `stored_in_gbuf` flags: a category is resident
unless the options allow bypassing it. -/
def Scheme.storedInit (s : Scheme) (dce : DataCat) : Bool :=
  !s.sw_gbuf_bypass dce

/-- Method `data_size(blvl, dce)` with the `stored_in_gbuf` flags the
record holds at the time of the call (the method is called once with the
conservative flags and once with the final flags). -/
def Scheme.data_size1 (s : Scheme) (stored : DataCat → Bool) (blvl : Nat)
    (dce : DataCat) : Nat :=
  s.unit_cnt blvl dce * s.unit_size blvl dce *
    (if blvl == 0 then (if stored dce then 1 else 0) else 1)

/-- Method `data_size(blvl)` without a category: the sum over all data
categories. -/
def Scheme.data_size (s : Scheme) (stored : DataCat → Bool) (blvl : Nat) :
    Nat :=
  s.data_size1 stored blvl .FIL + s.data_size1 stored blvl .IFM +
    s.data_size1 stored blvl .OFM

/-- Result of the first (conservative) capacity check in `__init__`:
`data_size(REGF) > size_regf or data_size(GBUF) > size_gbuf` marks the
record invalid. -/
def Scheme.valid1 (s : Scheme) : Bool :=
  !(s.data_size s.storedInit 1 > s.size_regf ||
    s.data_size s.storedInit 0 > s.size_gbuf)

/-- Final `stored_in_gbuf` flags.  The update loop in `__init__` runs only
when the first check passed; it flips a bypass-eligible category to
resident when the GBUF-level fetch count is strictly below the REGF-level
one. -/
def Scheme.stored_in_gbuf (s : Scheme) (dce : DataCat) : Bool :=
  if s.valid1 then
    s.storedInit dce || decide (s.fetch 0 dce < s.fetch 1 dce)
  else s.storedInit dce

/-- Result of the capacity recheck in `__init__`, with the final
residency flags. -/
def Scheme.valid2 (s : Scheme) : Bool :=
  !(s.data_size s.stored_in_gbuf 1 > s.size_regf ||
    s.data_size s.stored_in_gbuf 0 > s.size_gbuf)

/-- Attribute `valid` as observed by `is_valid()`: the record survives
both capacity checks. -/
def Scheme.valid (s : Scheme) : Bool := s.valid1 && s.valid2

/-- Loop count totals `total_units` of `_calc_stats`: products of the
total iteration counts of the two relevant loop kinds. -/
def Scheme.total_units (s : Scheme) : DataCat → Nat
  | .FIL => s.tip * s.top
  | .IFM => s.tip * s.tbp
  | .OFM => s.top * s.tbp

/-- Total loop count `lcnt = tip * top * tbp` of `_calc_stats`. -/
def Scheme.lcnt (s : Scheme) : Nat := s.tip * s.top * s.tbp

/-- Attribute `ops` as set by `_calc_stats`; `part_occ` is the occupancy
scalar the caller installed through `set_partition_occupation`. -/
def Scheme.ops (s : Scheme) (part_occ : ℚ) : ℚ :=
  s.unit_ops * s.lcnt * part_occ

/-- Attribute `time` as set by `_calc_stats`. -/
def Scheme.time (s : Scheme) : ℚ := s.unit_time * s.lcnt

/-- The REGF access multipliers `[1, 1, 2]` zipped against the data
categories in `_calc_stats`. -/
def regfMul : DataCat → ℚ
  | .FIL => 1
  | .IFM => 1
  | .OFM => 2

/-- Attribute `access` as set by `_calc_stats`, per hierarchy level and
data category. -/
def Scheme.accessTab (s : Scheme) (part_occ : ℚ) (mhe : MemHier)
    (dce : DataCat) : ℚ :=
  match mhe with
  | .REGF => s.unit_access .REGF dce * s.lcnt * regfMul dce * part_occ
  | .ITCN => s.unit_access .ITCN dce * s.total_units dce * s.fetch 1 dce
  | .GBUF =>
      s.unit_access .GBUF dce * s.total_units dce * s.fetch 1 dce *
        (if s.stored_in_gbuf dce then 1 else 0)
  | .DRAM => s.unit_access .DRAM dce * s.total_units dce * s.fetch 0 dce

/-- Method `get_access()`: `None` when the record is invalid, otherwise
the access table. -/
def Scheme.get_access (s : Scheme) (part_occ : ℚ) :
    Option (MemHier → DataCat → ℚ) :=
  if s.valid then some (s.accessTab part_occ) else none

/-- Method `get_top_level_fetch()`: `None` when the record is invalid,
otherwise the GBUF-level fetch counts. -/
def Scheme.get_top_level_fetch (s : Scheme) : Option (DataCat → Int) :=
  if s.valid then some (s.fetch 0) else none

/-- The cost-weight record handed to `get_cost` (`mac_op`, `mem_hier`,
`unit_static`). -/
structure CostModel where
  mac_op : ℚ
  mem_hier : MemHier → ℚ
  unit_static : ℚ

/-- Per-level total accesses `access_total` of `get_cost`. -/
def Scheme.accessTotal (s : Scheme) (part_occ : ℚ) (mhe : MemHier) : ℚ :=
  s.accessTab part_occ mhe .FIL + s.accessTab part_occ mhe .IFM +
    s.accessTab part_occ mhe .OFM

/-- Method `get_cost(cost)`: `float('inf')` (the top element) when the
record is invalid, otherwise operations, per-level access and static time
costs summed. -/
def Scheme.get_cost (s : Scheme) (part_occ : ℚ) (cost : CostModel) :
    WithTop ℚ :=
  if s.valid then
    some (s.ops part_occ * cost.mac_op +
      (cost.mem_hier .DRAM * s.accessTotal part_occ .DRAM +
        cost.mem_hier .GBUF * s.accessTotal part_occ .GBUF +
        cost.mem_hier .ITCN * s.accessTotal part_occ .ITCN +
        cost.mem_hier .REGF * s.accessTotal part_occ .REGF) +
      s.time * cost.unit_static)
  else ⊤

/-- Mutable state of a constructed record: the late-bound occupancy
scalar and the lazy-statistics flag (`part_occ = 1.0`,
`finalized_stats = False` right after construction). -/
structure LbsState where
  part_occ : ℚ
  finalized_stats : Bool
deriving DecidableEq

/-- Method `set_partition_occupation`: a silent no-op on an invalid
record; on a valid record the call asserts that statistics are not yet
finalized (`none` models the assertion failure) and then overwrites
`part_occ`. -/
def Scheme.set_partition_occupation (s : Scheme) (st : LbsState)
    (part_occ : ℚ) : Option LbsState :=
  if !s.valid then some st
  else if st.finalized_stats then none
  else some { st with part_occ := part_occ }

/-- Cartesian product of three generators, outermost first and the last
varying fastest, exactly as `itertools.product` consumes the per-level
index generators in `gen_index` and `_gen_index_single_level`. -/
def core {α β γ : Type} (g1 : List α) (g2 : List β) (g3 : List γ) :
    List (α × β × γ) :=
  g1.flatMap fun a => g2.flatMap fun b => g3.map fun c => (a, b, c)

/-- The `rev_order` computation of `_gen_index_single_level`:
`le.NUM - 1 - o`, the position of a loop counted from the outside. -/
def revOrder (ord : LoopKind → Nat) (lpe : LoopKind) : Nat := 2 - ord lpe

/-- The generator placed at slot `k` (0 = outermost) by the assignment
loop `gens[rev_order[lpe]] = xrange(t_x[lpe])` of
`_gen_index_single_level`; a later loop iteration overwrites an earlier
one, so BAT wins over OFM over IFM, and a slot no loop maps to keeps its
`None`, rendered here as the empty generator. -/
def gensAt (t ord : LoopKind → Nat) (k : Nat) : List Nat :=
  if revOrder ord .BAT == k then List.range (t .BAT)
  else if revOrder ord .OFM == k then List.range (t .OFM)
  else if revOrder ord .IFM == k then List.range (t .IFM)
  else []

/-- Tuple indexing `idx[k]` on a product-generator element. -/
def idxAt (x : Nat × Nat × Nat) : Nat → Nat
  | 0 => x.1
  | 1 => x.2.1
  | _ => x.2.2

/-- Static method `_gen_index_single_level(t_x, order_x)`: enumerate one
level's three loop counters outer-to-inner and reorder each produced
tuple back into LoopEnum order. -/
def genIndexSingleLevel (t ord : LoopKind → Nat) :
    List (Nat × Nat × Nat) :=
  (core (gensAt t ord 0) (gensAt t ord 1) (gensAt t ord 2)).map
    fun idx =>
      (idxAt idx (revOrder ord .IFM), idxAt idx (revOrder ord .OFM),
        idxAt idx (revOrder ord .BAT))

/-- The per-level blocking factors `t_x` built in `gen_index`. -/
def Scheme.tAt (s : Scheme) (bl : Nat) (lpe : LoopKind) : Nat :=
  (s.tl lpe).at_ bl

/-- The per-level loop-unit counts `cnt_x` built in `gen_index`
(`Util.prod(t[bl+1:])`; the innermost level gets all ones). -/
def Scheme.cntAt (s : Scheme) (bl : Nat) (lpe : LoopKind) : Nat :=
  (s.tl lpe).prodDrop (bl + 1)

/-- The per-level orders used by `gen_index`: the stored GBUF and REGF
orders, and the fixed `(0, 1, 2)` at the innermost level. -/
def Scheme.ordAt (s : Scheme) : Nat → LoopKind → Nat
  | 0 => s.order_gbuf
  | 1 => s.order_regf
  | _ => LoopKind.code

/-- Method `gen_index()`: the product of the three per-level index
generators, each combined tuple merged into global indexes by weighting
every level's counter with that level's loop-unit count and summing. -/
def Scheme.gen_index (s : Scheme) : List (Nat × Nat × Nat) :=
  (core (genIndexSingleLevel (s.tAt 0) (s.ordAt 0))
      (genIndexSingleLevel (s.tAt 1) (s.ordAt 1))
      (genIndexSingleLevel (s.tAt 2) (s.ordAt 2))).map
    fun b3 =>
      (b3.1.1 * s.cntAt 0 .IFM + b3.2.1.1 * s.cntAt 1 .IFM +
          b3.2.2.1 * s.cntAt 2 .IFM,
        b3.1.2.1 * s.cntAt 0 .OFM + b3.2.1.2.1 * s.cntAt 1 .OFM +
          b3.2.2.2.1 * s.cntAt 2 .OFM,
        b3.1.2.2 * s.cntAt 0 .BAT + b3.2.1.2.2 * s.cntAt 1 .BAT +
          b3.2.2.2.2 * s.cntAt 2 .BAT)

/-- Contract on a loop order (documented in `__init__`): each entry of
`orders` is a 3-permutation of (0, 1, 2) indexed by LoopEnum. -/
def IsPermOrder (ord : LoopKind → Nat) : Prop :=
  (ord .IFM = 0 ∧ ord .OFM = 1 ∧ ord .BAT = 2) ∨
    (ord .IFM = 0 ∧ ord .OFM = 2 ∧ ord .BAT = 1) ∨
    (ord .IFM = 1 ∧ ord .OFM = 0 ∧ ord .BAT = 2) ∨
    (ord .IFM = 1 ∧ ord .OFM = 2 ∧ ord .BAT = 0) ∨
    (ord .IFM = 2 ∧ ord .OFM = 0 ∧ ord .BAT = 1) ∨
    (ord .IFM = 2 ∧ ord .OFM = 1 ∧ ord .BAT = 0)

instance (ord : LoopKind → Nat) : Decidable (IsPermOrder ord) := by
  unfold IsPermOrder; infer_instance

/-- Contract on a whole record (the asserts of `__init__` together with
the documented order contract): each tiling product covers the required
loop count, all factors are positive, and both stored orders are
permutations. -/
def Scheme.Wf (s : Scheme) : Prop :=
  IsPermOrder s.order_gbuf ∧ IsPermOrder s.order_regf ∧
    s.loopcnt_ifm ≤ s.tip ∧ s.loopcnt_ofm ≤ s.top ∧
    s.loopcnt_bat ≤ s.tbp ∧
    0 < s.ti.f0 ∧ 0 < s.ti.f1 ∧ 0 < s.ti.f2 ∧
    0 < s.to_.f0 ∧ 0 < s.to_.f1 ∧ 0 < s.to_.f2 ∧
    0 < s.tb.f0 ∧ 0 < s.tb.f1 ∧ 0 < s.tb.f2

instance (s : Scheme) : Decidable s.Wf := by
  unfold Scheme.Wf; infer_instance

/-- Product of the two relevant-loop tiling factors of a data category at
one blocking level (the quantity `_set_fetch` compares against 1). -/
def Scheme.relevant (s : Scheme) (bl : Nat) : DataCat → Nat
  | .FIL => s.ti.at_ bl * s.to_.at_ bl
  | .IFM => s.ti.at_ bl * s.tb.at_ bl
  | .OFM => s.to_.at_ bl * s.tb.at_ bl

/-- The unrelated loop kind of a data category (FIL ↔ BAT, IFM ↔ OFM,
OFM ↔ IFM). -/
def unrelLoop : DataCat → LoopKind
  | .FIL => .BAT
  | .IFM => .OFM
  | .OFM => .IFM

/-- Modelled from the spec, the claim under test: the fetch count equals
the product of the unrelated loop kind's tiling factors at all levels
from the outermost up to and including this level if and only if the
unrelated loop kind is the innermost non-trivial loop at this level, and
otherwise the product stops one level short; the OFM category replaces
the product `p` by `2p - 1`. -/
def fetchSpecClaim (s : Scheme) (bl : Nat) : DataCat → Int
  | .FIL =>
      (s.tb.prodTake
        (if s.innermost_nontrivial_loop bl = some .BAT then bl + 1
         else bl) : Int)
  | .IFM =>
      (s.to_.prodTake
        (if s.innermost_nontrivial_loop bl = some .OFM then bl + 1
         else bl) : Int)
  | .OFM =>
      2 * (s.ti.prodTake
        (if s.innermost_nontrivial_loop bl = some .IFM then bl + 1
         else bl) : Int) - 1

/-- The amended claim formula: the product of the unrelated loop kind's
factors excludes this level's own factor exactly when the unrelated loop
kind is the innermost non-trivial loop at this level (consecutive
iterations of it then reuse the data), and includes it otherwise; the OFM
category replaces the product `p` by `2p - 1`. -/
def fetchSpecAmended (s : Scheme) (bl : Nat) : DataCat → Int
  | .FIL =>
      (s.tb.prodTake
        (if s.innermost_nontrivial_loop bl = some .BAT then bl
         else bl + 1) : Int)
  | .IFM =>
      (s.to_.prodTake
        (if s.innermost_nontrivial_loop bl = some .OFM then bl
         else bl + 1) : Int)
  | .OFM =>
      2 * (s.ti.prodTake
        (if s.innermost_nontrivial_loop bl = some .IFM then bl
         else bl + 1) : Int) - 1

/-- A loop order that nests BAT innermost, then IFM, then OFM. -/
def ordBATinner : LoopKind → Nat
  | .IFM => 1
  | .OFM => 2
  | .BAT => 0

/-- A concrete valid record: two-way blocking on the IFM and BAT loops at
the GBUF level, BAT innermost there, ample buffer capacities, no category
allowed to bypass the GBUF. -/
def sEx : Scheme where
  ti := ⟨2, 1, 1⟩
  to_ := ⟨1, 1, 1⟩
  tb := ⟨2, 1, 1⟩
  order_gbuf := ordBATinner
  order_regf := LoopKind.code
  usize_gbuf := fun _ => 1
  usize_regf := fun _ => 1
  loopcnt_ifm := 2
  loopcnt_ofm := 1
  loopcnt_bat := 2
  unit_ops := 1
  unit_time := 1
  unit_access := fun _ _ => 1
  size_gbuf := 100
  size_regf := 100
  sw_gbuf_bypass := fun _ => false

/-- The same record with a zero-capacity register file: the first
conservative capacity check fails, so the record is invalid. -/
def sInv : Scheme := { sEx with size_regf := 0 }

/-- A concrete cost model with unit weights. -/
def cmOne : CostModel where
  mac_op := 1
  mem_hier := fun _ => 1
  unit_static := 1

section CoreLemmas

variable {α β γ : Type}

lemma core_eq_product (g1 : List α) (g2 : List β) (g3 : List γ) :
    core g1 g2 g3 = g1 ×ˢ (g2 ×ˢ g3) := by
  simp only [core, SProd.sprod, List.product, List.map_flatMap,
    List.map_map]
  rfl

lemma mem_core {g1 : List α} {g2 : List β} {g3 : List γ} {x : α × β × γ} :
    x ∈ core g1 g2 g3 ↔ x.1 ∈ g1 ∧ x.2.1 ∈ g2 ∧ x.2.2 ∈ g3 := by
  obtain ⟨a, b, c⟩ := x
  rw [core_eq_product]
  simp [List.mem_product]

lemma core_length (g1 : List α) (g2 : List β) (g3 : List γ) :
    (core g1 g2 g3).length = g1.length * (g2.length * g3.length) := by
  rw [core_eq_product]
  simp [List.length_product]

lemma core_nodup {g1 : List α} {g2 : List β} {g3 : List γ}
    (h1 : g1.Nodup) (h2 : g2.Nodup) (h3 : g3.Nodup) :
    (core g1 g2 g3).Nodup := by
  rw [core_eq_product]
  exact h1.product (h2.product h3)

end CoreLemmas

lemma idxAt_zero (x : Nat × Nat × Nat) : idxAt x 0 = x.1 := rfl

lemma idxAt_one (x : Nat × Nat × Nat) : idxAt x 1 = x.2.1 := rfl

lemma idxAt_two (x : Nat × Nat × Nat) : idxAt x 2 = x.2.2 := rfl

lemma mem_genIndexSingleLevel (t ord : LoopKind → Nat)
    (h : IsPermOrder ord) (x : Nat × Nat × Nat) :
    x ∈ genIndexSingleLevel t ord ↔
      x.1 < t .IFM ∧ x.2.1 < t .OFM ∧ x.2.2 < t .BAT := by
  obtain ⟨x1, x2, x3⟩ := x
  rcases h with ⟨hI, hO, hB⟩ | ⟨hI, hO, hB⟩ | ⟨hI, hO, hB⟩ | ⟨hI, hO, hB⟩ |
    ⟨hI, hO, hB⟩ | ⟨hI, hO, hB⟩ <;>
    simp [genIndexSingleLevel, gensAt, revOrder, hI, hO, hB, mem_core,
      List.mem_map, List.mem_range, idxAt, Prod.ext_iff] <;>
    aesop

lemma length_genIndexSingleLevel (t ord : LoopKind → Nat)
    (h : IsPermOrder ord) :
    (genIndexSingleLevel t ord).length = t .IFM * (t .OFM * t .BAT) := by
  rcases h with ⟨hI, hO, hB⟩ | ⟨hI, hO, hB⟩ | ⟨hI, hO, hB⟩ | ⟨hI, hO, hB⟩ |
    ⟨hI, hO, hB⟩ | ⟨hI, hO, hB⟩ <;>
  · simp only [genIndexSingleLevel, gensAt, revOrder, hI, hO, hB]
    norm_num
    rw [core_length]
    simp only [List.length_range]
    try ring

lemma nodup_genIndexSingleLevel (t ord : LoopKind → Nat)
    (h : IsPermOrder ord) : (genIndexSingleLevel t ord).Nodup := by
  rcases h with ⟨hI, hO, hB⟩ | ⟨hI, hO, hB⟩ | ⟨hI, hO, hB⟩ | ⟨hI, hO, hB⟩ |
    ⟨hI, hO, hB⟩ | ⟨hI, hO, hB⟩ <;>
  · simp only [genIndexSingleLevel, gensAt, revOrder, hI, hO, hB]
    norm_num
    refine List.Nodup.map ?_ (core_nodup (List.nodup_range _)
      (List.nodup_range _) (List.nodup_range _))
    intro a b hab
    obtain ⟨a1, a2, a3⟩ := a
    obtain ⟨b1, b2, b3⟩ := b
    simp_all [idxAt]

section MixedRadix

lemma mr3_lt {t0 t1 t2 a0 a1 a2 : Nat} (h0 : a0 < t0) (h1 : a1 < t1)
    (h2 : a2 < t2) : a0 * (t1 * t2) + a1 * t2 + a2 < t0 * (t1 * t2) := by
  calc a0 * (t1 * t2) + a1 * t2 + a2
      < a0 * (t1 * t2) + a1 * t2 + t2 := by omega
  _ = a0 * (t1 * t2) + (a1 + 1) * t2 := by ring
  _ ≤ a0 * (t1 * t2) + t1 * t2 :=
      Nat.add_le_add_left (Nat.mul_le_mul_right _ h1) _
  _ = (a0 + 1) * (t1 * t2) := by ring
  _ ≤ t0 * (t1 * t2) := Nat.mul_le_mul_right _ h0

lemma mr2_extract {t1 a0 a1 : Nat} (h1 : a1 < t1) :
    (a0 * t1 + a1) / t1 = a0 ∧ (a0 * t1 + a1) % t1 = a1 := by
  have ht1 : 0 < t1 := lt_of_le_of_lt (Nat.zero_le a1) h1
  constructor
  · rw [Nat.add_comm, Nat.add_mul_div_right _ _ ht1, Nat.div_eq_of_lt h1,
      Nat.zero_add]
  · rw [Nat.add_comm, Nat.add_mul_mod_self_right, Nat.mod_eq_of_lt h1]

lemma mr3_inj {t1 t2 a0 a1 a2 b0 b1 b2 : Nat} (ha1 : a1 < t1)
    (ha2 : a2 < t2) (hb1 : b1 < t1) (hb2 : b2 < t2)
    (h : a0 * (t1 * t2) + a1 * t2 + a2 = b0 * (t1 * t2) + b1 * t2 + b2) :
    a0 = b0 ∧ a1 = b1 ∧ a2 = b2 := by
  have ea : a0 * (t1 * t2) + a1 * t2 + a2 = (a0 * t1 + a1) * t2 + a2 := by
    ring
  have eb : b0 * (t1 * t2) + b1 * t2 + b2 = (b0 * t1 + b1) * t2 + b2 := by
    ring
  rw [ea, eb] at h
  have h2 : a2 = b2 := by
    have := congrArg (fun n => n % t2) h
    simpa [(mr2_extract ha2).2, (mr2_extract hb2).2] using this
  have hq : a0 * t1 + a1 = b0 * t1 + b1 := by
    have := congrArg (fun n => n / t2) h
    simpa [(mr2_extract ha2).1, (mr2_extract hb2).1] using this
  have h1 : a1 = b1 := by
    have := congrArg (fun n => n % t1) hq
    simpa [(mr2_extract ha1).2, (mr2_extract hb1).2] using this
  have h0 : a0 = b0 := by
    have := congrArg (fun n => n / t1) hq
    simpa [(mr2_extract ha1).1, (mr2_extract hb1).1] using this
  exact ⟨h0, h1, h2⟩

lemma mr3_exists {t0 t1 t2 n : Nat} (h : n < t0 * (t1 * t2)) :
    ∃ a0 a1 a2, a0 < t0 ∧ a1 < t1 ∧ a2 < t2 ∧
      n = a0 * (t1 * t2) + a1 * t2 + a2 := by
  rcases Nat.eq_zero_or_pos t2 with rfl | ht2
  · rw [Nat.mul_zero, Nat.mul_zero] at h
    exact absurd h (Nat.not_lt_zero n)
  rcases Nat.eq_zero_or_pos t1 with rfl | ht1
  · rw [Nat.zero_mul, Nat.mul_zero] at h
    exact absurd h (Nat.not_lt_zero n)
  refine ⟨n / t2 / t1, n / t2 % t1, n % t2, ?_, Nat.mod_lt _ ht1,
    Nat.mod_lt _ ht2, ?_⟩
  · rw [Nat.div_div_eq_div_mul]
    rw [Nat.div_lt_iff_lt_mul (Nat.mul_pos ht2 ht1)]
    calc n < t0 * (t1 * t2) := h
    _ = t0 * (t2 * t1) := by ring
  · have e1 : n = t2 * (n / t2) + n % t2 := (Nat.div_add_mod n t2).symm
    have e2 : n / t2 = t1 * (n / t2 / t1) + n / t2 % t1 :=
      (Nat.div_add_mod (n / t2) t1).symm
    calc n = t2 * (n / t2) + n % t2 := e1
    _ = t2 * (t1 * (n / t2 / t1) + n / t2 % t1) + n % t2 := by rw [← e2]
    _ = n / t2 / t1 * (t1 * t2) + n / t2 % t1 * t2 + n % t2 := by ring

end MixedRadix

lemma isPermOrder_code : IsPermOrder LoopKind.code :=
  Or.inl ⟨rfl, rfl, rfl⟩

lemma mem_gen_index (s : Scheme) (hG : IsPermOrder s.order_gbuf)
    (hR : IsPermOrder s.order_regf) (x : Nat × Nat × Nat) :
    x ∈ s.gen_index ↔ x.1 < s.tip ∧ x.2.1 < s.top ∧ x.2.2 < s.tbp := by
  obtain ⟨xi, xo, xb⟩ := x
  constructor
  · intro hx
    unfold Scheme.gen_index at hx
    rw [List.mem_map] at hx
    obtain ⟨⟨i0, i1, i2⟩, hmem, heq⟩ := hx
    rw [mem_core] at hmem
    obtain ⟨m0, m1, m2⟩ := hmem
    simp only [Scheme.ordAt] at m0 m1 m2
    rw [mem_genIndexSingleLevel _ _ hG] at m0
    rw [mem_genIndexSingleLevel _ _ hR] at m1
    rw [mem_genIndexSingleLevel _ _ isPermOrder_code] at m2
    simp only [Scheme.tAt, Scheme.tl, T3.at_] at m0 m1 m2
    obtain ⟨mi0, mo0, mb0⟩ := m0
    obtain ⟨mi1, mo1, mb1⟩ := m1
    obtain ⟨mi2, mo2, mb2⟩ := m2
    simp only [Scheme.cntAt, Scheme.tl, T3.prodDrop, Prod.mk.injEq,
      Nat.mul_one] at heq
    obtain ⟨h1, h2, h3⟩ := heq
    refine ⟨?_, ?_, ?_⟩
    · rw [← h1]
      simpa [Scheme.tip, T3.prodAll, Nat.mul_assoc] using
        mr3_lt mi0 mi1 mi2
    · rw [← h2]
      simpa [Scheme.top, T3.prodAll, Nat.mul_assoc] using
        mr3_lt mo0 mo1 mo2
    · rw [← h3]
      simpa [Scheme.tbp, T3.prodAll, Nat.mul_assoc] using
        mr3_lt mb0 mb1 mb2
  · rintro ⟨hxi, hxo, hxb⟩
    rw [Scheme.tip, T3.prodAll, Nat.mul_assoc] at hxi
    rw [Scheme.top, T3.prodAll, Nat.mul_assoc] at hxo
    rw [Scheme.tbp, T3.prodAll, Nat.mul_assoc] at hxb
    obtain ⟨ai0, ai1, ai2, hai0, hai1, hai2, hei⟩ := mr3_exists hxi
    obtain ⟨ao0, ao1, ao2, hao0, hao1, hao2, heo⟩ := mr3_exists hxo
    obtain ⟨ab0, ab1, ab2, hab0, hab1, hab2, heb⟩ := mr3_exists hxb
    unfold Scheme.gen_index
    rw [List.mem_map]
    refine ⟨((ai0, ao0, ab0), (ai1, ao1, ab1), (ai2, ao2, ab2)), ?_, ?_⟩
    · rw [mem_core]
      refine ⟨?_, ?_, ?_⟩
      · simp only [Scheme.ordAt]
        rw [mem_genIndexSingleLevel _ _ hG]
        simp only [Scheme.tAt, Scheme.tl, T3.at_]
        exact ⟨hai0, hao0, hab0⟩
      · simp only [Scheme.ordAt]
        rw [mem_genIndexSingleLevel _ _ hR]
        simp only [Scheme.tAt, Scheme.tl, T3.at_]
        exact ⟨hai1, hao1, hab1⟩
      · simp only [Scheme.ordAt]
        rw [mem_genIndexSingleLevel _ _ isPermOrder_code]
        simp only [Scheme.tAt, Scheme.tl, T3.at_]
        exact ⟨hai2, hao2, hab2⟩
    · simp only [Scheme.cntAt, Scheme.tl, T3.prodDrop, Prod.mk.injEq,
        Nat.mul_one]
      exact ⟨hei.symm, heo.symm, heb.symm⟩

lemma length_gen_index (s : Scheme) (hG : IsPermOrder s.order_gbuf)
    (hR : IsPermOrder s.order_regf) :
    s.gen_index.length = s.tip * s.top * s.tbp := by
  unfold Scheme.gen_index
  rw [List.length_map, core_length]
  simp only [Scheme.ordAt]
  rw [length_genIndexSingleLevel _ _ hG, length_genIndexSingleLevel _ _ hR,
    length_genIndexSingleLevel _ _ isPermOrder_code]
  simp only [Scheme.tAt, Scheme.tl, T3.at_, Scheme.tip, Scheme.top,
    Scheme.tbp, T3.prodAll]
  ring

lemma nodup_gen_index (s : Scheme) (hG : IsPermOrder s.order_gbuf)
    (hR : IsPermOrder s.order_regf) : s.gen_index.Nodup := by
  unfold Scheme.gen_index
  refine List.Nodup.map_on ?_ (core_nodup ?_ ?_ ?_)
  · intro u hu v hv huv
    obtain ⟨u0, u1, u2⟩ := u
    obtain ⟨v0, v1, v2⟩ := v
    rw [mem_core] at hu hv
    obtain ⟨mu0, mu1, mu2⟩ := hu
    obtain ⟨mv0, mv1, mv2⟩ := hv
    simp only [Scheme.ordAt] at mu0 mu1 mu2 mv0 mv1 mv2
    rw [mem_genIndexSingleLevel _ _ hG] at mu0 mv0
    rw [mem_genIndexSingleLevel _ _ hR] at mu1 mv1
    rw [mem_genIndexSingleLevel _ _ isPermOrder_code] at mu2 mv2
    simp only [Scheme.tAt, Scheme.tl, T3.at_] at mu0 mu1 mu2 mv0 mv1 mv2
    simp only [Scheme.cntAt, Scheme.tl, T3.prodDrop, Prod.mk.injEq,
      Nat.mul_one] at huv
    obtain ⟨hI, hO, hB⟩ := huv
    obtain ⟨eI0, eI1, eI2⟩ := mr3_inj mu1.1 mu2.1 mv1.1 mv2.1 hI
    obtain ⟨eO0, eO1, eO2⟩ := mr3_inj mu1.2.1 mu2.2.1 mv1.2.1 mv2.2.1 hO
    obtain ⟨eB0, eB1, eB2⟩ := mr3_inj mu1.2.2 mu2.2.2 mv1.2.2 mv2.2.2 hB
    obtain ⟨u00, u01, u02⟩ := u0
    obtain ⟨u10, u11, u12⟩ := u1
    obtain ⟨u20, u21, u22⟩ := u2
    obtain ⟨v00, v01, v02⟩ := v0
    obtain ⟨v10, v11, v12⟩ := v1
    obtain ⟨v20, v21, v22⟩ := v2
    simp_all
  · simp only [Scheme.ordAt]
    exact nodup_genIndexSingleLevel _ _ hG
  · simp only [Scheme.ordAt]
    exact nodup_genIndexSingleLevel _ _ hR
  · simp only [Scheme.ordAt]
    exact nodup_genIndexSingleLevel _ _ isPermOrder_code

/-- C1, counterexample to the claim as stated.  In the record `sEx` the
unrelated loop of the FIL category (BAT) is the innermost non-trivial
loop at the GBUF level and the FIL relevant factors are not both 1, yet
the fetch count computed by `_set_fetch` is 1 and differs from the
claimed product `tb[0] = 2` that includes this level's factor: the
claim's biconditional points the wrong way. -/
theorem C1_fetch_claim_counterexample :
    sEx.valid = true ∧
    sEx.innermost_nontrivial_loop 0 = some .BAT ∧
    sEx.relevant 0 .FIL ≠ 1 ∧
    sEx.fetch 0 .FIL ≠ fetchSpecClaim sEx 0 .FIL := by decide

/-- C1, amended: for every record that passes the first capacity check
(so `_set_fetch` runs), every on-chip blocking level and every data
category whose two relevant-loop tiling factors at that level are not
both 1, the fetch count equals the product of the unrelated loop kind's
tiling factors at all levels from the outermost up to and including this
level if and only if the unrelated loop kind is NOT the innermost
non-trivial loop at this level; when it is the innermost non-trivial
loop, the product excludes this level's own unrelated-loop factor.  The
OFM category uses `2 × product − 1` in place of the plain product. -/
theorem C1_fetch_formula (s : Scheme) (bl : Nat) (c : DataCat)
    (hv : s.valid1 = true) (hbl : bl < 2) (h : s.relevant bl c ≠ 1) :
    s.fetch bl c = fetchSpecAmended s bl c := by
  have hfe : s.fetch bl = s.feAt bl
      (match bl with
       | 0 => fun _ => (1 : Int)
       | n + 1 => s.fetch n) := by
    cases bl <;> rfl
  rw [hfe]
  cases c
  case FIL =>
    simp only [Scheme.relevant] at h
    have hc : (s.ti.at_ bl * s.to_.at_ bl == 1) = false :=
      beq_eq_false_iff_ne.mpr h
    by_cases hin : s.innermost_nontrivial_loop bl = some LoopKind.BAT <;>
      simp [Scheme.feAt, fetchSpecAmended, hc, hin]
  case IFM =>
    simp only [Scheme.relevant] at h
    have hc : (s.ti.at_ bl * s.tb.at_ bl == 1) = false :=
      beq_eq_false_iff_ne.mpr h
    by_cases hin : s.innermost_nontrivial_loop bl = some LoopKind.OFM <;>
      simp [Scheme.feAt, fetchSpecAmended, hc, hin]
  case OFM =>
    simp only [Scheme.relevant] at h
    have hc : (s.to_.at_ bl * s.tb.at_ bl == 1) = false :=
      beq_eq_false_iff_ne.mpr h
    by_cases hin : s.innermost_nontrivial_loop bl = some LoopKind.IFM <;>
      simp [Scheme.feAt, fetchSpecAmended, hc, hin]

/-- C1, witness for the amended theorem at the concrete record `sEx`,
GBUF level, FIL category. -/
theorem C1_fetch_formula_witness :
    sEx.valid1 = true ∧ (0 : Nat) < 2 ∧ sEx.relevant 0 .FIL ≠ 1 ∧
    sEx.fetch 0 .FIL = fetchSpecAmended sEx 0 .FIL :=
  ⟨by decide, by decide, by decide,
    C1_fetch_formula sEx 0 .FIL (by decide) (by decide) (by decide)⟩

/-- C2: every record on which `is_valid()` returns true satisfies both
capacity bounds with the final `stored_in_gbuf` flags: the REGF data size
is at most the REGF capacity and the GBUF data size at most the GBUF
capacity. -/
theorem C2_valid_capacity (s : Scheme) (h : s.valid = true) :
    s.data_size s.stored_in_gbuf 1 ≤ s.size_regf ∧
    s.data_size s.stored_in_gbuf 0 ≤ s.size_gbuf := by
  simp only [Scheme.valid, Bool.and_eq_true] at h
  have h2 := h.2
  unfold Scheme.valid2 at h2
  simp only [Bool.not_or, Bool.and_eq_true, Bool.not_eq_true',
    decide_eq_false_iff_not, Nat.not_lt] at h2
  omega

/-- C2, witness at the concrete valid record `sEx`. -/
theorem C2_valid_capacity_witness :
    sEx.valid = true ∧
    (sEx.data_size sEx.stored_in_gbuf 1 ≤ sEx.size_regf ∧
      sEx.data_size sEx.stored_in_gbuf 0 ≤ sEx.size_gbuf) :=
  ⟨by decide, C2_valid_capacity sEx (by decide)⟩

/-- C3: with both stored orders 3-permutations (the construction
contract), `gen_index()` yields exactly `tip * top * tbp` triples with no
duplicates, and a triple is yielded exactly when each component is within
its loop-count bound: the yielded set is the full rectangular range
`[0, tip) × [0, top) × [0, tbp)`, in bijection with the flattened
iteration counter. -/
theorem C3_gen_index_bijection (s : Scheme) (hG : IsPermOrder s.order_gbuf)
    (hR : IsPermOrder s.order_regf) :
    s.gen_index.length = s.tip * s.top * s.tbp ∧ s.gen_index.Nodup ∧
    ∀ x, x ∈ s.gen_index ↔
      x.1 < s.tip ∧ x.2.1 < s.top ∧ x.2.2 < s.tbp :=
  ⟨length_gen_index s hG hR, nodup_gen_index s hG hR, mem_gen_index s hG hR⟩

/-- C3, witness at the concrete record `sEx`. -/
theorem C3_gen_index_bijection_witness :
    IsPermOrder sEx.order_gbuf ∧ IsPermOrder sEx.order_regf ∧
    (sEx.gen_index.length = sEx.tip * sEx.top * sEx.tbp ∧
      sEx.gen_index.Nodup ∧
      ∀ x, x ∈ sEx.gen_index ↔
        x.1 < sEx.tip ∧ x.2.1 < sEx.top ∧ x.2.2 < sEx.tbp) :=
  ⟨by decide, by decide,
    C3_gen_index_bijection sEx (by decide) (by decide)⟩

/-- C4, counterexample to the claim as stated: the record `sInv` fails
the first capacity check, `is_valid()` is false, yet `gen_index()` is not
empty (it yields the full four-triple sequence) because `gen_index` never
consults `valid`. -/
theorem C4_invalid_gen_index_counterexample :
    sInv.valid = false ∧ sInv.gen_index ≠ [] := by decide

/-- C4, amended: `gen_index()` ignores validity; on a record on which
`is_valid()` returns false it still yields the full `tip * top * tbp`
triples, hence a non-empty sequence whenever that product is positive. -/
theorem C4_invalid_gen_index (s : Scheme) (hv : s.valid = false)
    (hG : IsPermOrder s.order_gbuf) (hR : IsPermOrder s.order_regf)
    (hpos : 0 < s.tip * s.top * s.tbp) : s.gen_index ≠ [] := by
  intro hnil
  have hlen := length_gen_index s hG hR
  rw [hnil] at hlen
  simp only [List.length_nil] at hlen
  omega

/-- C4, witness for the amended theorem at the concrete invalid record
`sInv`. -/
theorem C4_invalid_gen_index_witness :
    sInv.valid = false ∧ IsPermOrder sInv.order_gbuf ∧
    IsPermOrder sInv.order_regf ∧ 0 < sInv.tip * sInv.top * sInv.tbp ∧
    sInv.gen_index ≠ [] :=
  ⟨by decide, by decide, by decide, by decide,
    C4_invalid_gen_index sInv (by decide) (by decide) (by decide)
      (by decide)⟩

/-- C5: on a record on which `is_valid()` returns false, `get_cost`
returns `float('inf')` (the top element) and `get_access` returns the
unavailable sentinel `None`, for any occupancy and cost model. -/
theorem C5_invalid_sentinels (s : Scheme) (part_occ : ℚ)
    (cost : CostModel) (h : s.valid = false) :
    s.get_cost part_occ cost = ⊤ ∧ s.get_access part_occ = none := by
  constructor <;> simp [Scheme.get_cost, Scheme.get_access, h]

/-- C5, witness at the concrete invalid record `sInv` (whose REGF data
size exceeds the zero REGF capacity at the first conservative check). -/
theorem C5_invalid_sentinels_witness :
    sInv.valid = false ∧
    (sInv.get_cost 1 cmOne = ⊤ ∧ sInv.get_access 1 = none) :=
  ⟨by decide, C5_invalid_sentinels sInv 1 cmOne (by decide)⟩

/-- C6: `stored_in_gbuf[c]` starts false exactly when the options permit
bypassing `c`; the final value never downgrades an initially-true flag;
and a flag that ends true either started true or was flipped because the
GBUF-boundary fetch count is strictly smaller than the REGF-boundary one
(the only false-to-true path, and no path goes true-to-false). -/
theorem C6_stored_in_gbuf_monotone (s : Scheme) (c : DataCat) :
    s.storedInit c = !s.sw_gbuf_bypass c ∧
    (s.storedInit c = true → s.stored_in_gbuf c = true) ∧
    (s.stored_in_gbuf c = true →
      s.storedInit c = true ∨ s.fetch 0 c < s.fetch 1 c) := by
  refine ⟨rfl, ?_, ?_⟩
  · intro h
    unfold Scheme.stored_in_gbuf
    split
    · simp [h]
    · exact h
  · intro h
    unfold Scheme.stored_in_gbuf at h
    split at h
    · rcases Bool.or_eq_true_iff.mp h with h1 | h1
      · exact Or.inl h1
      · exact Or.inr (of_decide_eq_true h1)
    · exact Or.inl h

/-- C6, witness at the concrete record `sEx` and the FIL category. -/
theorem C6_stored_in_gbuf_monotone_witness :
    sEx.storedInit .FIL = !sEx.sw_gbuf_bypass .FIL ∧
    (sEx.storedInit .FIL = true → sEx.stored_in_gbuf .FIL = true) ∧
    (sEx.stored_in_gbuf .FIL = true →
      sEx.storedInit .FIL = true ∨ sEx.fetch 0 .FIL < sEx.fetch 1 .FIL) :=
  C6_stored_in_gbuf_monotone sEx .FIL

/-- C7: on a valid record, `get_access` returns the access table, whose
DRAM row at each category is the per-unit DRAM access count times
`total_units` times that category's entry of `get_top_level_fetch()`
(the GBUF-level, outermost-boundary, fetch count). -/
theorem C7_dram_roundtrip (s : Scheme) (part_occ : ℚ)
    (h : s.valid = true) :
    s.get_access part_occ = some (s.accessTab part_occ) ∧
    s.get_top_level_fetch = some (s.fetch 0) ∧
    ∀ c, s.accessTab part_occ .DRAM c =
      s.unit_access .DRAM c * s.total_units c * (s.fetch 0 c : ℚ) :=
  ⟨by simp [Scheme.get_access, h],
    by simp [Scheme.get_top_level_fetch, h],
    fun c => rfl⟩

/-- C7, witness at the concrete valid record `sEx` with occupancy 1. -/
theorem C7_dram_roundtrip_witness :
    sEx.valid = true ∧
    (sEx.get_access 1 = some (sEx.accessTab 1) ∧
      sEx.get_top_level_fetch = some (sEx.fetch 0) ∧
      ∀ c, sEx.accessTab 1 .DRAM c =
        sEx.unit_access .DRAM c * sEx.total_units c * (sEx.fetch 0 c : ℚ)) :=
  ⟨by decide, C7_dram_roundtrip sEx 1 (by decide)⟩

/-- C8: on a valid record, with `N = tip * top * tbp` the product of all
tiling factors, the computed operations equal
`unit_ops × N × occupancy` while the computed time equals
`unit_time × N`: time carries no occupancy factor, operations do. -/
theorem C8_ops_time (s : Scheme) (part_occ : ℚ) (h : s.valid = true) :
    s.ops part_occ =
      s.unit_ops * ((s.tip * s.top * s.tbp : Nat) : ℚ) * part_occ ∧
    s.time = s.unit_time * ((s.tip * s.top * s.tbp : Nat) : ℚ) :=
  ⟨rfl, rfl⟩

/-- C8, witness at the concrete valid record `sEx` with occupancy 1. -/
theorem C8_ops_time_witness :
    sEx.valid = true ∧
    (sEx.ops 1 =
      sEx.unit_ops * ((sEx.tip * sEx.top * sEx.tbp : Nat) : ℚ) * 1 ∧
      sEx.time = sEx.unit_time * ((sEx.tip * sEx.top * sEx.tbp : Nat) : ℚ)) :=
  ⟨by decide, C8_ops_time sEx 1 (by decide)⟩

/-- C9, counterexample to the claim as stated: on the valid record `sEx`
with statistics not yet finalized, a first call to
`set_partition_occupation` succeeds and a second call before any
finalization succeeds as well, silently overwriting the value — the
second call is permitted, not rejected. -/
theorem C9_second_set_counterexample :
    sEx.set_partition_occupation ⟨1, false⟩ (1/2) = some ⟨1/2, false⟩ ∧
    sEx.set_partition_occupation ⟨1/2, false⟩ (1/4) = some ⟨1/4, false⟩ := by
  constructor <;>
    simp [Scheme.set_partition_occupation, show sEx.valid = true by decide]

/-- C9, amended: `set_partition_occupation` is a no-op on an invalid
record and a hard assertion failure once statistics are finalized, but
before finalization it may be called any number of times on a valid
record, each call overwriting `part_occ`. -/
theorem C9_set_partition_occupation (s sBad : Scheme) (st stBad : LbsState)
    (v w : ℚ) (hv : s.valid = true) (hf : st.finalized_stats = false)
    (hvBad : sBad.valid = false) :
    sBad.set_partition_occupation stBad v = some stBad ∧
    s.set_partition_occupation ⟨st.part_occ, true⟩ v = none ∧
    s.set_partition_occupation st v = some ⟨v, false⟩ ∧
    s.set_partition_occupation ⟨v, false⟩ w = some ⟨w, false⟩ := by
  obtain ⟨po, fs⟩ := st
  simp only [LbsState.finalized_stats] at hf
  subst hf
  refine ⟨?_, ?_, ?_, ?_⟩ <;>
    simp [Scheme.set_partition_occupation, hv, hvBad]

/-- C9, witness for the amended theorem at the concrete records `sEx`
(valid) and `sInv` (invalid). -/
theorem C9_set_partition_occupation_witness :
    sEx.valid = true ∧
    (⟨(1 : ℚ), false⟩ : LbsState).finalized_stats = false ∧
    sInv.valid = false ∧
    (sInv.set_partition_occupation ⟨1, false⟩ (1/2) = some ⟨1, false⟩ ∧
      sEx.set_partition_occupation ⟨(⟨(1 : ℚ), false⟩ : LbsState).part_occ,
        true⟩ (1/2) = none ∧
      sEx.set_partition_occupation ⟨1, false⟩ (1/2) = some ⟨1/2, false⟩ ∧
      sEx.set_partition_occupation ⟨1/2, false⟩ (1/4) = some ⟨1/4, false⟩) :=
  ⟨by decide, rfl, by decide,
    C9_set_partition_occupation sEx sInv ⟨1, false⟩ ⟨1, false⟩ (1/2) (1/4)
      (by decide) rfl (by decide)⟩

/-- C10: the REGF-level data sizes are independent of the
`stored_in_gbuf` flags, both per category and in total; raising flags
pointwise can only increase the GBUF-level total; and therefore, once
the first conservative check passed, the REGF bound still holds with the
final flags, so the recheck can only be failed by the GBUF constraint. -/
theorem C10_regf_flag_independent (s : Scheme) (f g : DataCat → Bool)
    (hmono : ∀ c, f c = true → g c = true) (hv : s.valid1 = true) :
    (∀ c, s.data_size1 f 1 c = s.data_size1 g 1 c) ∧
    s.data_size f 1 = s.data_size g 1 ∧
    s.data_size f 0 ≤ s.data_size g 0 ∧
    s.data_size s.stored_in_gbuf 1 ≤ s.size_regf := by
  have key : ∀ c, s.data_size1 f 0 c ≤ s.data_size1 g 0 c := by
    intro c
    unfold Scheme.data_size1
    rcases hfc : f c with _ | _
    · simp [hfc]
    · simp [hfc, hmono c hfc]
  refine ⟨fun c => rfl, rfl, ?_, ?_⟩
  · unfold Scheme.data_size
    exact Nat.add_le_add (Nat.add_le_add (key .FIL) (key .IFM)) (key .OFM)
  · have he : s.data_size s.stored_in_gbuf 1 = s.data_size s.storedInit 1 :=
      rfl
    rw [he]
    unfold Scheme.valid1 at hv
    simp only [Bool.not_or, Bool.and_eq_true, Bool.not_eq_true',
      decide_eq_false_iff_not, Nat.not_lt] at hv
    exact hv.1

/-- C10, witness at the concrete record `sEx`, flipping all flags from
false to true. -/
theorem C10_regf_flag_independent_witness :
    (∀ c, (fun _ : DataCat => false) c = true →
      (fun _ : DataCat => true) c = true) ∧
    sEx.valid1 = true ∧
    ((∀ c, sEx.data_size1 (fun _ => false) 1 c =
        sEx.data_size1 (fun _ => true) 1 c) ∧
      sEx.data_size (fun _ => false) 1 = sEx.data_size (fun _ => true) 1 ∧
      sEx.data_size (fun _ => false) 0 ≤ sEx.data_size (fun _ => true) 0 ∧
      sEx.data_size sEx.stored_in_gbuf 1 ≤ sEx.size_regf) :=
  ⟨fun c h => rfl, by decide,
    C10_regf_flag_independent sEx (fun _ => false) (fun _ => true)
      (fun c h => rfl) (by decide)⟩

end NNDF
